import Mathlib

/-!
Verification of the PsyGuard scoring and aggregation layer.

Python strings are modelled as lists of characters (`PyStr`), Python floats
as rationals, and the external ML models (the zero-shot classifier, the LLM
client and the CLIP vision model) as explicit function parameters, so that
every repository function becomes a pure, executable Lean definition.
-/

set_option maxHeartbeats 1000000
set_option maxRecDepth 100000

/-- Python strings are modelled as character lists. -/
abbrev PyStr := List Char

/-- Whitespace set used by Python str.strip, str.split and the regex class. -/
def pyIsSpace (c : Char) : Bool :=
  c = ' ' || c = '\t' || c = '\n' || c = '\r' || c = Char.ofNat 11 || c = Char.ofNat 12

/-- Model of Python str.strip: remove leading and trailing whitespace. -/
def pyStrip (s : PyStr) : PyStr :=
  ((s.dropWhile pyIsSpace).reverse.dropWhile pyIsSpace).reverse

/-- Model of Python str.split with no separator: cut at every whitespace
character and discard the empty pieces, which is splitting on whitespace runs. -/
def pySplit (s : PyStr) : List PyStr :=
  (List.splitOnP pyIsSpace s).filter (fun w => !w.isEmpty)

/-- Model of Python " ".join over word lists: the pieces separated by one
space character. -/
def joinSpace : List PyStr → PyStr
  | [] => []
  | [w] => w
  | w :: v :: rest => w ++ ' ' :: joinSpace (v :: rest)

/-- Round half to even on rationals, the tie rule of the Python round builtin. -/
def roundHalfEven (q : ℚ) : ℤ :=
  if 1/2 < q - ⌊q⌋ then ⌊q⌋ + 1
  else if q - ⌊q⌋ < 1/2 then ⌊q⌋
  else if ⌊q⌋ % 2 = 0 then ⌊q⌋ else ⌊q⌋ + 1

/-- Model of the Python round builtin with a digit count. -/
def pyRound (ndigits : ℕ) (q : ℚ) : ℚ :=
  (roundHalfEven (q * 10 ^ ndigits) : ℚ) / 10 ^ ndigits

/-- Arithmetic mean of a rational list, as np.mean on a non-empty list. -/
def listMean (l : List ℚ) : ℚ := l.sum / l.length

/-- The fixed manipulation tactic label set of model.py. -/
def TACTIC_LABELS : List PyStr :=
  ["Fear & Urgency".data, "False Social Proof".data, "Identity Attack".data,
   "Emotional Hijacking".data, "Scarcity Illusion".data, "Gaslighting".data]

/-- The static tactic description table of model.py. -/
def TACTIC_DESCRIPTIONS : List (PyStr × PyStr) :=
  [("Fear & Urgency".data, "Creates panic or time pressure to bypass rational thinking".data),
   ("False Social Proof".data, "Uses fake or exaggerated popularity to influence behavior".data),
   ("Identity Attack".data, "Targets personal identity to shame or manipulate".data),
   ("Emotional Hijacking".data, "Overloads emotions to override logical decision-making".data),
   ("Scarcity Illusion".data, "Fabricates limited availability to trigger impulsive action".data),
   ("Gaslighting".data, "Contradicts reality to make the reader doubt their perception".data)]

/-- The static tactic display colors of model.py. -/
def TACTIC_COLORS : List (PyStr × PyStr) :=
  [("Fear & Urgency".data, "#ff4d6a".data),
   ("False Social Proof".data, "#ffb547".data),
   ("Identity Attack".data, "#a78bfa".data),
   ("Emotional Hijacking".data, "#f472b6".data),
   ("Scarcity Illusion".data, "#38bdf8".data),
   ("Gaslighting".data, "#fb923c".data)]

/-- A zero-shot classifier in multi-label mode: a per-chunk, per-label score.
The real classifier is the facebook bart-large-mnli pipeline; it is a fixed
external function of the chunk text and label, modelled as a parameter. -/
abbrev MultiLabelClassifier := PyStr → PyStr → ℚ

/-- Fuel-indexed helper for the word grouping, structurally recursive so that
it evaluates inside the kernel; the fuel bounds the word-list length. -/
def groupWordsF (size : ℕ) : ℕ → List PyStr → List (List PyStr)
  | _, [] => []
  | 0, _ :: _ => []
  | fuel + 1, w :: rest => ((w :: rest).take size) :: groupWordsF size fuel (rest.drop (size - 1))

/-- Successive word groups of a given size; models the slices
words[i:i+size] for i in range(0, len(words), size) in chunk text. -/
def groupWords (size : ℕ) (ws : List PyStr) : List (List PyStr) :=
  groupWordsF size ws.length ws

/-- Model of ManipulationDetector chunk text: split into words, join groups
of at most size words, drop blank chunks, fall back to the whole text. -/
def _chunk_text (text : PyStr) (size : ℕ) : List PyStr :=
  let words := pySplit text
  let chunks := (groupWords size words).map joinSpace
  let kept := chunks.filter (fun c => !(pyStrip c).isEmpty)
  if kept.isEmpty then [text] else kept

/-- The analysis result dictionary returned by analyze text. -/
structure AnalysisResult where
  overall_score : ℚ
  severity : PyStr
  severity_color : PyStr
  tactic_scores : List (PyStr × ℚ)
  tactic_colors : List (PyStr × PyStr)
  top_tactics : List PyStr
  tactic_descriptions : List (PyStr × PyStr)
  chunks_analyzed : ℕ
  word_count : ℕ
deriving DecidableEq

/-- Model of ManipulationDetector empty result. -/
def _empty_result : AnalysisResult :=
  { overall_score := 0
    severity := "LOW".data
    severity_color := "#22c55e".data
    tactic_scores := TACTIC_LABELS.map (fun k => (k, 0))
    tactic_colors := TACTIC_COLORS
    top_tactics := []
    tactic_descriptions := TACTIC_DESCRIPTIONS
    chunks_analyzed := 0
    word_count := 0 }

/-- Descending comparison on label-score pairs used by the Python stable sort
sorted(items, key score, reverse true). -/
abbrev scoreDesc (a b : PyStr × ℚ) : Prop := b.2 ≤ a.2

instance : DecidableRel scoreDesc := fun a b => inferInstanceAs (Decidable (b.2 ≤ a.2))

/-- Model of ManipulationDetector analyze text from model.py: chunk, classify
at most 5 chunks, average per label across chunks, rescale, rank, round. -/
def analyze_text (classifier : MultiLabelClassifier) (text : PyStr) : AnalysisResult :=
  if text = [] ∨ (pyStrip text).length < 10 then _empty_result
  else
    let chunks := _chunk_text text 400
    let used := chunks.take 5
    let tactic_scores : List (PyStr × ℚ) :=
      TACTIC_LABELS.map (fun label => (label, listMean (used.map (fun ch => classifier ch label))))
    let raw := listMean (tactic_scores.map Prod.snd)
    let overall := min 100 (raw * 180)
    let sorted_tactics := List.insertionSort scoreDesc tactic_scores
    let top_tactics := (sorted_tactics.filter (fun p => 0.25 < p.2)).map Prod.fst
    let severity := if 70 ≤ overall then "HIGH".data
                    else if 40 ≤ overall then "MODERATE".data else "LOW".data
    let sev_color := if 70 ≤ overall then "#ef4444".data
                     else if 40 ≤ overall then "#f59e0b".data else "#22c55e".data
    { overall_score := pyRound 1 overall
      severity := severity
      severity_color := sev_color
      tactic_scores := tactic_scores.map (fun p => (p.1, pyRound 1 (p.2 * 100)))
      tactic_colors := TACTIC_COLORS
      top_tactics := top_tactics.take 3
      tactic_descriptions := TACTIC_DESCRIPTIONS
      chunks_analyzed := used.length
      word_count := (pySplit text).length }

/-- Per-tactic mean across classified chunks, the value averaged in
analyze text before rescaling; used to state the claims. -/
def tacticMean (classifier : MultiLabelClassifier) (text : PyStr) (label : PyStr) : ℚ :=
  listMean (((_chunk_text text 400).take 5).map (fun ch => classifier ch label))

/-- The unrounded overall score computed inside analyze text. -/
def overallUnrounded (classifier : MultiLabelClassifier) (text : PyStr) : ℚ :=
  if text = [] ∨ (pyStrip text).length < 10 then 0
  else min 100 (listMean (TACTIC_LABELS.map (tacticMean classifier text)) * 180)

/-- The severity tier as a function of the unrounded overall score. -/
def severityOf (overall : ℚ) : PyStr :=
  if 70 ≤ overall then "HIGH".data
  else if 40 ≤ overall then "MODERATE".data else "LOW".data

/-! ### Generic bounds for the mean and the rounding helpers -/

theorem listMean_nonneg {l : List ℚ} (h : ∀ x ∈ l, 0 ≤ x) : 0 ≤ listMean l := by
  unfold listMean
  apply div_nonneg
  · exact List.sum_nonneg h
  · exact Nat.cast_nonneg _

theorem listMean_le_one {l : List ℚ} (h : ∀ x ∈ l, x ≤ 1) : listMean l ≤ 1 := by
  unfold listMean
  rcases l with _ | ⟨a, t⟩
  · simp
  · rw [div_le_one (by exact_mod_cast Nat.succ_pos t.length)]
    have := List.sum_le_card_nsmul (a :: t) 1 h
    simpa using this

theorem roundHalfEven_nonneg {q : ℚ} (h : 0 ≤ q) : 0 ≤ roundHalfEven q := by
  unfold roundHalfEven
  have hf : (0 : ℤ) ≤ ⌊q⌋ := Int.floor_nonneg.mpr h
  split
  · omega
  · split
    · omega
    · split <;> omega

theorem roundHalfEven_le {q : ℚ} {m : ℤ} (h : q ≤ m) : roundHalfEven q ≤ m := by
  unfold roundHalfEven
  have hfl : ⌊q⌋ ≤ m := by
    calc ⌊q⌋ ≤ ⌊(m : ℚ)⌋ := Int.floor_le_floor h
      _ = m := Int.floor_intCast m
  have hq : (⌊q⌋ : ℚ) ≤ q := Int.floor_le q
  split
  · rename_i hgt
    by_contra hc
    push_neg at hc
    have hm : ⌊q⌋ = m := by omega
    rw [hm] at hgt
    have : q ≤ (m : ℚ) := h
    linarith
  · split
    · exact hfl
    · split
      · exact hfl
      · rename_i h1 h2 _
        push_neg at h1 h2
        have hfrac : q - (⌊q⌋ : ℚ) = 1/2 := le_antisymm h1 h2
        by_contra hc
        push_neg at hc
        have hm : ⌊q⌋ = m := by omega
        rw [hm] at hfrac
        have : q = (m : ℚ) + 1/2 := by linarith
        rw [this] at h
        norm_num at h

theorem pyRound_nonneg {n : ℕ} {q : ℚ} (h : 0 ≤ q) : 0 ≤ pyRound n q := by
  unfold pyRound
  apply div_nonneg _ (by positivity)
  exact_mod_cast roundHalfEven_nonneg (by positivity)

theorem pyRound_one_le_100 {q : ℚ} (h : q ≤ 100) : pyRound 1 q ≤ 100 := by
  unfold pyRound
  rw [div_le_iff₀ (by norm_num)]
  have h1 : q * 10 ^ 1 ≤ ((1000 : ℤ) : ℚ) := by push_cast; linarith
  have h2 := roundHalfEven_le h1
  calc ((roundHalfEven (q * 10 ^ 1)) : ℚ) ≤ ((1000 : ℤ) : ℚ) := by exact_mod_cast h2
    _ = 100 * 10 ^ 1 := by norm_num

/-! ### Claim C4: short or empty text yields the canonical empty result -/

/-- C4: for every input text that is empty or has fewer than 10 characters
after trimming, analyze text returns the canonical zero result, with
overall score 0, severity LOW, all tactic scores 0, no top tactics,
chunks analyzed 0 and word count 0, regardless of the actual word count. -/
theorem claim_c4_empty_result (classifier : MultiLabelClassifier) (text : PyStr)
    (h : text = [] ∨ (pyStrip text).length < 10) :
    analyze_text classifier text = _empty_result := by
  unfold analyze_text
  rw [if_pos h]

/-- C4 witness: a 9-character text of five words gets the canonical result,
in particular word count 0 although the text holds 5 words. -/
theorem claim_c4_empty_result_witness :
    ("a b c d e".data = [] ∨ (pyStrip "a b c d e".data).length < 10)
      ∧ analyze_text (fun _ _ => 1/2) "a b c d e".data = _empty_result
      ∧ (pySplit "a b c d e".data).length = 5
      ∧ (analyze_text (fun _ _ => 1/2) "a b c d e".data).word_count = 0 :=
  ⟨by decide, claim_c4_empty_result (fun _ _ => 1/2) "a b c d e".data (by decide),
   by decide, by decide⟩

/-! ### Claim C2: severity versus the returned overall score -/

/-- Constant classifier producing score 0.222 for every chunk and label. -/
def c2Classifier : MultiLabelClassifier := fun _ _ => 111/500

/-- An 11-character input text. -/
def c2Text : PyStr := "aaaaaaaaaaa".data

/-- C2 counterexample: here the unrounded overall score is 39.96, so the code
picks severity LOW, yet the returned overall score rounds up to 40.0; the
returned pair (overall score 40.0, severity LOW) contradicts the claim that
overall score in [40,70) always comes with severity MODERATE. Severity is
therefore not a function of the returned rounded overall score field. -/
theorem claim_c2_counterexample :
    (analyze_text c2Classifier c2Text).overall_score = 40
      ∧ (40 : ℚ) < 70
      ∧ (analyze_text c2Classifier c2Text).severity = "LOW".data
      ∧ (analyze_text c2Classifier c2Text).severity ≠ "MODERATE".data := by
  refine ⟨?_, by norm_num, ?_, ?_⟩
  · with_unfolding_all decide
  · with_unfolding_all decide
  · with_unfolding_all decide

/-- C2 amended: the severity field is a pure function of the unrounded
overall score min(100, 180 x mean of tactic means) computed inside
analyze text, with thresholds at 40 and 70 inclusive on the lower edge;
the returned overall score field is that value rounded to one decimal,
so a rounded boundary value may carry the lower tier. -/
theorem claim_c2_amended (classifier : MultiLabelClassifier) (text : PyStr) :
    (analyze_text classifier text).severity
      = severityOf (overallUnrounded classifier text) := by
  unfold analyze_text overallUnrounded severityOf tacticMean
  by_cases h : text = [] ∨ (pyStrip text).length < 10
  · rw [if_pos h, if_pos h]
    norm_num [_empty_result]
  · rw [if_neg h, if_neg h]
    rfl

/-! ### Claim C1: the overall score formula and its range -/

/-- C1: for every text of at least 10 trimmed characters and classifier
scores in [0,1], the overall score equals min(100, 180 x mean over the six
tactics of the per-tactic means across classified chunks) rounded to one
decimal, and lies in [0,100]. -/
theorem claim_c1_overall_score (classifier : MultiLabelClassifier) (text : PyStr)
    (hlen : 10 ≤ (pyStrip text).length)
    (hb : ∀ ch l, 0 ≤ classifier ch l ∧ classifier ch l ≤ 1) :
    (analyze_text classifier text).overall_score
        = pyRound 1 (min 100 (180 * listMean (TACTIC_LABELS.map (tacticMean classifier text))))
      ∧ 0 ≤ (analyze_text classifier text).overall_score
      ∧ (analyze_text classifier text).overall_score ≤ 100 := by
  have hguard : ¬(text = [] ∨ (pyStrip text).length < 10) := by
    rintro (h | h)
    · subst h
      simp only [pyStrip, List.dropWhile_nil, List.reverse_nil, List.length_nil] at hlen
      omega
    · omega
  have heq : (analyze_text classifier text).overall_score
      = pyRound 1 (min 100 (180 * listMean (TACTIC_LABELS.map (tacticMean classifier text)))) := by
    unfold analyze_text
    rw [if_neg hguard, mul_comm (180 : ℚ)]
    rfl
  have hM0 : 0 ≤ listMean (TACTIC_LABELS.map (tacticMean classifier text)) := by
    apply listMean_nonneg
    intro x hx
    obtain ⟨l, _, rfl⟩ := List.mem_map.mp hx
    apply listMean_nonneg
    intro y hy
    obtain ⟨ch, _, rfl⟩ := List.mem_map.mp hy
    exact (hb ch l).1
  have hM1 : listMean (TACTIC_LABELS.map (tacticMean classifier text)) ≤ 1 := by
    apply listMean_le_one
    intro x hx
    obtain ⟨l, _, rfl⟩ := List.mem_map.mp hx
    apply listMean_le_one
    intro y hy
    obtain ⟨ch, _, rfl⟩ := List.mem_map.mp hy
    exact (hb ch l).2
  refine ⟨heq, ?_, ?_⟩
  · rw [heq]
    exact pyRound_nonneg (le_min (by norm_num) (by positivity))
  · rw [heq]
    exact pyRound_one_le_100 (min_le_left _ _)

/-- Constant classifier used in the C1 witness. -/
def c1Classifier : MultiLabelClassifier := fun _ _ => 1/2

/-- Text used in the C1 witness. -/
def c1Text : PyStr := "Act now or lose everything forever friends".data

/-- C1 witness: the theorem applied to a concrete classifier and text. -/
theorem claim_c1_overall_score_witness :
    10 ≤ (pyStrip c1Text).length
      ∧ ((analyze_text c1Classifier c1Text).overall_score
            = pyRound 1 (min 100 (180 * listMean (TACTIC_LABELS.map (tacticMean c1Classifier c1Text))))
          ∧ 0 ≤ (analyze_text c1Classifier c1Text).overall_score
          ∧ (analyze_text c1Classifier c1Text).overall_score ≤ 100) :=
  ⟨by decide,
   claim_c1_overall_score c1Classifier c1Text (by decide)
     (fun ch l => by norm_num [c1Classifier])⟩

/-! ### Stability of the insertion sort used by the tactic ranking -/

/-- Inserting a below every element it must follow keeps the combined
order-and-stability invariant: each earlier element relates to each later
one by r, and wherever r also holds backwards the tie is resolved by q. -/
theorem orderedInsert_pairwise_stable {α : Type} {r : α → α → Prop} [DecidableRel r]
    {q : α → α → Prop}
    (htot : ∀ a b, r a b ∨ r b a) (htr : ∀ a b c, r a b → r b c → r a c)
    (a : α) (l : List α)
    (hl : l.Pairwise (fun x y => r x y ∧ (r y x → q x y)))
    (ha : ∀ b ∈ l, q a b) :
    (List.orderedInsert r a l).Pairwise (fun x y => r x y ∧ (r y x → q x y)) := by
  induction l with
  | nil => simp
  | cons b t ih =>
    rcases List.pairwise_cons.mp hl with ⟨hbt, htP⟩
    by_cases hab : r a b
    · rw [List.orderedInsert, if_pos hab]
      refine List.pairwise_cons.mpr ⟨?_, hl⟩
      intro c hc
      rcases List.mem_cons.mp hc with rfl | hc
      · exact ⟨hab, fun _ => ha c (List.mem_cons_self c t)⟩
      · refine ⟨htr a b c hab (hbt c hc).1, fun _ => ha c (List.mem_cons_of_mem b hc)⟩
    · rw [List.orderedInsert, if_neg hab]
      refine List.pairwise_cons.mpr
        ⟨?_, ih htP (fun c hc => ha c (List.mem_cons_of_mem b hc))⟩
      intro c hc
      rcases (List.mem_orderedInsert r).mp hc with rfl | hc
      · exact ⟨(htot c b).resolve_left hab, fun h => absurd h hab⟩
      · exact hbt c hc

/-- Stability of insertion sort: sorting a list whose original order is
recorded by q yields a list pairwise ordered by r, with backward-r ties
still ordered by q. -/
theorem insertionSort_pairwise_stable {α : Type} {r q : α → α → Prop} [DecidableRel r]
    (htot : ∀ a b, r a b ∨ r b a) (htr : ∀ a b c, r a b → r b c → r a c)
    (l : List α) (hl : l.Pairwise q) :
    (List.insertionSort r l).Pairwise (fun x y => r x y ∧ (r y x → q x y)) := by
  induction l with
  | nil => simp
  | cons a t ih =>
    rcases List.pairwise_cons.mp hl with ⟨hat, htP⟩
    rw [List.insertionSort]
    apply orderedInsert_pairwise_stable htot htr a _ (ih htP)
    intro b hb
    exact hat b ((List.perm_insertionSort r t).subset hb)

/-! ### Claim C3: the top tactics list -/

/-- Position of a label in the fixed label set. -/
def labelIdx (l : PyStr) : ℕ := TACTIC_LABELS.indexOf l

/-- Strict ranking on labels used by the claim: higher mean first, ties by
the original label-set order. -/
def tacticRank (m : PyStr → ℚ) (a b : PyStr) : Prop :=
  m b < m a ∨ (m a = m b ∧ labelIdx a < labelIdx b)

/-- C3: top tactics has length at most 3, contains only labels of the fixed
set whose per-tactic mean exceeds 0.25, is ordered by descending mean with
ties broken by the original label order, and any qualifying tactic left out
is only left out because three better-ranked tactics fill the list. -/
theorem claim_c3_top_tactics (classifier : MultiLabelClassifier) (text : PyStr)
    (hlen : 10 ≤ (pyStrip text).length) :
    (analyze_text classifier text).top_tactics.length ≤ 3
    ∧ (∀ t ∈ (analyze_text classifier text).top_tactics,
         t ∈ TACTIC_LABELS ∧ 0.25 < tacticMean classifier text t)
    ∧ (analyze_text classifier text).top_tactics.Pairwise
        (tacticRank (tacticMean classifier text))
    ∧ (∀ t ∈ TACTIC_LABELS, 0.25 < tacticMean classifier text t →
         t ∉ (analyze_text classifier text).top_tactics →
         (analyze_text classifier text).top_tactics.length = 3
           ∧ ∀ u ∈ (analyze_text classifier text).top_tactics,
               tacticRank (tacticMean classifier text) u t) := by
  have hguard : ¬(text = [] ∨ (pyStrip text).length < 10) := by
    rintro (h | h)
    · subst h
      simp only [pyStrip, List.dropWhile_nil, List.reverse_nil, List.length_nil] at hlen
      omega
    · omega
  set m := tacticMean classifier text with hm
  set TS : List (PyStr × ℚ) := TACTIC_LABELS.map (fun l => (l, m l)) with hTS
  set S := List.insertionSort scoreDesc TS with hS
  set F := S.filter (fun p => (0.25 : ℚ) < p.2) with hF
  set L := F.map Prod.fst with hL
  have htt : (analyze_text classifier text).top_tactics = L.take 3 := by
    unfold analyze_text
    rw [if_neg hguard]
    rfl
  have hshape : ∀ p ∈ S, p.2 = m p.1 ∧ p.1 ∈ TACTIC_LABELS := by
    intro p hp
    have hpTS : p ∈ TS := (List.perm_insertionSort scoreDesc TS).subset hp
    rw [hTS] at hpTS
    obtain ⟨l, hl, rfl⟩ := List.mem_map.mp hpTS
    exact ⟨rfl, hl⟩
  have hq : TS.Pairwise (fun x y => labelIdx x.1 < labelIdx y.1) := by
    rw [hTS]
    refine List.pairwise_map.mpr ?_
    show TACTIC_LABELS.Pairwise (fun a b => labelIdx a < labelIdx b)
    decide
  have hPW : S.Pairwise
      (fun x y => scoreDesc x y ∧ (scoreDesc y x → labelIdx x.1 < labelIdx y.1)) := by
    rw [hS]
    exact insertionSort_pairwise_stable
      (fun a b => le_total b.2 a.2) (fun a b c h1 h2 => le_trans h2 h1) TS hq
  have hLP : L.Pairwise (tacticRank m) := by
    have hFP := hPW.filter (fun p => decide ((0.25 : ℚ) < p.2))
    rw [hL]
    refine List.pairwise_map.mpr ?_
    refine List.Pairwise.imp_of_mem ?_ hFP
    intro a b ha hb hab
    have ha' := hshape a (List.mem_of_mem_filter ha)
    have hb' := hshape b (List.mem_of_mem_filter hb)
    rcases lt_or_eq_of_le hab.1 with hlt | heq2
    · left
      rw [← ha'.1, ← hb'.1]
      exact hlt
    · right
      refine ⟨by rw [← ha'.1, ← hb'.1, heq2], hab.2 (le_of_eq heq2.symm)⟩
  refine ⟨?_, ?_, ?_, ?_⟩
  · rw [htt]
    exact List.length_take_le 3 L
  · intro t ht
    rw [htt] at ht
    have htL : t ∈ L := (List.take_sublist 3 L).subset ht
    rw [hL] at htL
    obtain ⟨p, hpF, rfl⟩ := List.mem_map.mp htL
    have hp2 := List.mem_filter.mp hpF
    have hsc : (0.25 : ℚ) < p.2 := of_decide_eq_true hp2.2
    have hsh := hshape p hp2.1
    refine ⟨hsh.2, ?_⟩
    rw [← hsh.1]
    exact hsc
  · rw [htt]
    exact List.Pairwise.sublist (List.take_sublist 3 L) hLP
  · intro t htL0 hm25 htnot
    rw [htt] at htnot ⊢
    have htmem : t ∈ L := by
      rw [hL]
      refine List.mem_map.mpr ⟨(t, m t), ?_, rfl⟩
      rw [hF]
      refine List.mem_filter.mpr ⟨?_, decide_eq_true hm25⟩
      rw [hS]
      exact (List.perm_insertionSort scoreDesc TS).mem_iff.mpr
        (by rw [hTS]; exact List.mem_map.mpr ⟨t, htL0, rfl⟩)
    have hdrop : t ∈ L.drop 3 := by
      have hsplit := List.take_append_drop 3 L
      rcases List.mem_append.mp (by rw [hsplit]; exact htmem) with h | h
      · exact absurd h htnot
      · exact h
    have h3 : 3 < L.length := by
      by_contra hc
      push_neg at hc
      rw [List.drop_eq_nil_of_le hc] at hdrop
      exact absurd hdrop (List.not_mem_nil t)
    constructor
    · rw [List.length_take]
      omega
    · intro u hu
      have hLP2 := hLP
      rw [← List.take_append_drop 3 L] at hLP2
      exact (List.pairwise_append.mp hLP2).2.2 u hu t hdrop

/-- Classifier with distinct per-label scores for the C3 witness. -/
def c3Classifier : MultiLabelClassifier := fun _ l =>
  if l = "Gaslighting".data then 9/10 else if l = "Fear & Urgency".data then 1/2 else 1/10

/-- Text used in the C3 witness. -/
def c3Text : PyStr := "You are all being lied to constantly".data

/-- C3 witness: the theorem applied to a concrete classifier and text. -/
theorem claim_c3_top_tactics_witness :
    10 ≤ (pyStrip c3Text).length
      ∧ ((analyze_text c3Classifier c3Text).top_tactics.length ≤ 3
        ∧ (∀ t ∈ (analyze_text c3Classifier c3Text).top_tactics,
             t ∈ TACTIC_LABELS ∧ 0.25 < tacticMean c3Classifier c3Text t)
        ∧ (analyze_text c3Classifier c3Text).top_tactics.Pairwise
            (tacticRank (tacticMean c3Classifier c3Text))
        ∧ (∀ t ∈ TACTIC_LABELS, 0.25 < tacticMean c3Classifier c3Text t →
             t ∉ (analyze_text c3Classifier c3Text).top_tactics →
             (analyze_text c3Classifier c3Text).top_tactics.length = 3
               ∧ ∀ u ∈ (analyze_text c3Classifier c3Text).top_tactics,
                   tacticRank (tacticMean c3Classifier c3Text) u t)) :=
  ⟨by decide, claim_c3_top_tactics c3Classifier c3Text (by decide)⟩


/-! ### Claim C10: properties of the chunking helper -/

theorem splitOnP_ne_nil (p : Char → Bool) (s : PyStr) : List.splitOnP p s ≠ [] := by
  induction s with
  | nil => simp [List.splitOnP_nil]
  | cons c t ih =>
    rw [List.splitOnP_cons]
    split
    · simp
    · rcases hsp : List.splitOnP p t with _ | ⟨h, t'⟩
      · exact absurd hsp ih
      · simp [List.modifyHead]

theorem mem_splitOnP_no_sep (p : Char → Bool) (s : PyStr) :
    ∀ w ∈ List.splitOnP p s, ∀ c ∈ w, ¬ p c := by
  induction s with
  | nil =>
    intro w hw
    rw [List.splitOnP_nil] at hw
    rcases List.mem_singleton.mp hw with rfl
    simp
  | cons c t ih =>
    intro w hw
    rw [List.splitOnP_cons] at hw
    by_cases hc : p c
    · rw [if_pos hc] at hw
      rcases List.mem_cons.mp hw with rfl | hw
      · simp
      · exact ih w hw
    · rw [if_neg hc] at hw
      rcases hsp : List.splitOnP p t with _ | ⟨h, t'⟩
      · exact absurd hsp (splitOnP_ne_nil p t)
      · rw [hsp, List.modifyHead] at hw
        rcases List.mem_cons.mp hw with rfl | hw
        · intro x hx
          rcases List.mem_cons.mp hx with rfl | hx
          · simpa using hc
          · exact ih h (hsp ▸ List.mem_cons_self h t') x hx
        · exact ih w (hsp ▸ List.mem_cons_of_mem h hw)

theorem pySplit_words_clean (s : PyStr) :
    ∀ w ∈ pySplit s, w ≠ [] ∧ ∀ c ∈ w, pyIsSpace c = false := by
  intro w hw
  unfold pySplit at hw
  have h2 := List.mem_filter.mp hw
  refine ⟨?_, ?_⟩
  · intro hnil
    rw [hnil] at h2
    simp at h2
  · intro c hc
    have := mem_splitOnP_no_sep pyIsSpace s w h2.1 c hc
    simpa using this

theorem modifyHead_comp {α : Type} (f g : α → α) (l : List α) :
    List.modifyHead f (List.modifyHead g l) = List.modifyHead (fun x => f (g x)) l := by
  cases l <;> simp [List.modifyHead]

theorem splitOnP_clean_append (w r : PyStr) (hw : ∀ c ∈ w, pyIsSpace c = false) :
    List.splitOnP pyIsSpace (w ++ r)
      = List.modifyHead (fun x => w ++ x) (List.splitOnP pyIsSpace r) := by
  induction w with
  | nil =>
    cases hsp : List.splitOnP pyIsSpace r with
    | nil => exact absurd hsp (splitOnP_ne_nil pyIsSpace r)
    | cons h t => rw [List.nil_append, hsp]; simp [List.modifyHead]
  | cons c w' ih =>
    have hc : pyIsSpace c = false := hw c (List.mem_cons_self c w')
    rw [List.cons_append, List.splitOnP_cons, if_neg (by simp [hc]),
        ih (fun x hx => hw x (List.mem_cons_of_mem c hx)), modifyHead_comp]
    cases hsp : List.splitOnP pyIsSpace r with
    | nil => exact absurd hsp (splitOnP_ne_nil pyIsSpace r)
    | cons h t => simp [List.modifyHead]


theorem pySplit_joinSpace (ws : List PyStr)
    (hws : ∀ w ∈ ws, w ≠ [] ∧ ∀ c ∈ w, pyIsSpace c = false) :
    pySplit (joinSpace ws) = ws := by
  induction ws with
  | nil => rfl
  | cons w rest ih =>
    have hw := hws w (List.mem_cons_self w rest)
    have hwB : (!w.isEmpty) = true := by simp [hw.1]
    cases rest with
    | nil =>
      show pySplit (joinSpace [w]) = [w]
      unfold pySplit
      rw [show joinSpace [w] = w from rfl,
          show (w : PyStr) = w ++ [] from (List.append_nil w).symm,
          splitOnP_clean_append w [] hw.2, List.splitOnP_nil, List.modifyHead,
          List.filter_cons, List.append_nil, hwB]
      rfl
    | cons v rest' =>
      have ih' := ih (fun u hu => hws u (List.mem_cons_of_mem w hu))
      unfold pySplit at ih' ⊢
      rw [show joinSpace (w :: v :: rest') = w ++ ' ' :: joinSpace (v :: rest') from rfl,
          splitOnP_clean_append w _ hw.2, List.splitOnP_cons,
          if_pos (by decide : pyIsSpace ' ' = true), List.modifyHead,
          List.filter_cons, List.append_nil, hwB, if_pos rfl, ih']


theorem groupWordsF_join (s : ℕ) (fuel : ℕ) (ws : List PyStr) (hf : ws.length ≤ fuel) :
    (groupWordsF (s + 1) fuel ws).flatten = ws := by
  induction fuel generalizing ws with
  | zero =>
    have hnil : ws = [] := List.length_eq_zero.mp (Nat.le_zero.mp hf)
    subst hnil
    rfl
  | succ fuel ih =>
    cases ws with
    | nil => rfl
    | cons w rest =>
      have hlen : (rest.drop s).length ≤ fuel := by
        simp only [List.length_drop]
        simp only [List.length_cons] at hf
        omega
      simp only [groupWordsF, List.flatten_cons, Nat.add_sub_cancel, List.take_succ_cons]
      rw [ih (rest.drop s) hlen, List.cons_append, List.take_append_drop]

theorem groupWordsF_mem (s : ℕ) (fuel : ℕ) (ws : List PyStr) (hf : ws.length ≤ fuel) :
    ∀ g ∈ groupWordsF (s + 1) fuel ws,
      g ≠ [] ∧ g.length ≤ s + 1 ∧ ∀ x ∈ g, x ∈ ws := by
  induction fuel generalizing ws with
  | zero =>
    have hnil : ws = [] := List.length_eq_zero.mp (Nat.le_zero.mp hf)
    subst hnil
    intro g hg
    simp [groupWordsF] at hg
  | succ fuel ih =>
    cases ws with
    | nil =>
      intro g hg
      simp [groupWordsF] at hg
    | cons w rest =>
      intro g hg
      simp only [groupWordsF, List.mem_cons] at hg
      rcases hg with rfl | hg
      · refine ⟨by simp [List.take_succ_cons], List.length_take_le _ _, ?_⟩
        intro x hx
        exact (List.take_sublist _ _).subset hx
      · have hlen : (rest.drop s).length ≤ fuel := by
          simp only [List.length_drop]
          simp only [List.length_cons] at hf
          omega
        have := ih (rest.drop s) hlen g hg
        refine ⟨this.1, this.2.1, ?_⟩
        intro x hx
        exact List.mem_cons_of_mem w ((List.drop_sublist _ _).subset (this.2.2 x hx))

theorem mem_dropWhile_of_not {p : Char → Bool} {c : Char} {s : PyStr}
    (hc : c ∈ s) (hpc : p c = false) : c ∈ s.dropWhile p := by
  have hsplit : s.takeWhile p ++ s.dropWhile p = s := List.takeWhile_append_dropWhile p s
  have hc' : c ∈ s.takeWhile p ++ s.dropWhile p := by rw [hsplit]; exact hc
  rcases List.mem_append.mp hc' with h | h
  · have := List.mem_takeWhile_imp h
    exact absurd this (by simp [hpc])
  · exact h

theorem pyStrip_ne_nil {c : Char} {s : PyStr}
    (hc : c ∈ s) (hpc : pyIsSpace c = false) : pyStrip s ≠ [] := by
  unfold pyStrip
  have h1 : c ∈ s.dropWhile pyIsSpace := mem_dropWhile_of_not hc hpc
  have h2 : c ∈ (s.dropWhile pyIsSpace).reverse := List.mem_reverse.mpr h1
  have h3 : c ∈ (s.dropWhile pyIsSpace).reverse.dropWhile pyIsSpace :=
    mem_dropWhile_of_not h2 hpc
  exact List.ne_nil_of_mem (List.mem_reverse.mpr h3)

theorem mem_joinSpace_head {c : Char} {w : PyStr} (gs : List PyStr) (hc : c ∈ w) :
    c ∈ joinSpace (w :: gs) := by
  cases gs with
  | nil => exact hc
  | cons v rest => exact List.mem_append_left _ hc

/-- C10 counterexample: on the empty text the chunking helper falls back to
the single chunk [text], which is the empty string, so the returned list
contains an empty chunk. -/
theorem claim_c10_counterexample :
    _chunk_text [] 400 = [[]] ∧ ([] : PyStr) ∈ _chunk_text [] 400 := by
  constructor <;> decide

/-- C10 amended: for every text the chunking helper with size 400 returns a
non-empty list of chunks, every chunk holds at most 400 words, concatenating
the chunk word sequences in order gives exactly the word sequence of the
text, and as long as the text has at least one word every chunk is a
non-empty, non-blank string; a wordless text yields the single fallback
chunk [text], which may be empty or all whitespace. -/
theorem claim_c10_chunking (text : PyStr) :
    _chunk_text text 400 ≠ []
    ∧ (∀ ch ∈ _chunk_text text 400, (pySplit ch).length ≤ 400)
    ∧ ((_chunk_text text 400).map pySplit).flatten = pySplit text
    ∧ (pySplit text ≠ [] → ∀ ch ∈ _chunk_text text 400, ch ≠ [] ∧ pyStrip ch ≠ []) := by
  have hclean := pySplit_words_clean text
  by_cases hw : pySplit text = []
  · have hct : _chunk_text text 400 = [text] := by
      unfold _chunk_text
      rw [hw]
      rfl
    rw [hct]
    refine ⟨by simp, ?_, ?_, ?_⟩
    · intro ch hch
      rcases List.mem_singleton.mp hch with rfl
      rw [hw]
      simp
    · simp [hw]
    · intro hcontra
      exact absurd hw hcontra
  · obtain ⟨w0, rest0, hw0⟩ := List.exists_cons_of_ne_nil hw
    have hmem := groupWordsF_mem 399 (pySplit text).length (pySplit text) (le_refl _)
    have hjoin := groupWordsF_join 399 (pySplit text).length (pySplit text) (le_refl _)
    norm_num at hmem hjoin
    have hgroups : groupWords 400 (pySplit text) = groupWordsF 400 (pySplit text).length (pySplit text) := rfl
    rw [← hgroups] at hmem hjoin
    have hchunk : ∀ g ∈ groupWords 400 (pySplit text),
        pyStrip (joinSpace g) ≠ [] ∧ joinSpace g ≠ [] := by
      intro g hg
      obtain ⟨hgne, _, hgmem⟩ := hmem g hg
      obtain ⟨wg, gs', rfl⟩ := List.exists_cons_of_ne_nil hgne
      have hwg := hclean wg (hgmem wg (List.mem_cons_self wg gs'))
      obtain ⟨c, wtl, rfl⟩ := List.exists_cons_of_ne_nil hwg.1
      have hcmem : c ∈ joinSpace ((c :: wtl) :: gs') :=
        mem_joinSpace_head gs' (List.mem_cons_self c wtl)
      have hcns : pyIsSpace c = false := hwg.2 c (List.mem_cons_self c wtl)
      exact ⟨pyStrip_ne_nil hcmem hcns, List.ne_nil_of_mem hcmem⟩
    have hgne : groupWords 400 (pySplit text) ≠ [] := by
      rw [hgroups, hw0]
      simp [groupWordsF]
    have hfilter : ((groupWords 400 (pySplit text)).map joinSpace).filter
        (fun c => !(pyStrip c).isEmpty) = (groupWords 400 (pySplit text)).map joinSpace := by
      apply List.filter_eq_self.mpr
      intro ch hch
      obtain ⟨g, hg, rfl⟩ := List.mem_map.mp hch
      rw [Bool.not_eq_true', List.isEmpty_eq_false]
      exact (hchunk g hg).1
    have hct : _chunk_text text 400 = (groupWords 400 (pySplit text)).map joinSpace := by
      unfold _chunk_text
      dsimp only
      rw [hfilter, if_neg]
      rw [List.isEmpty_iff]
      simp [hgne]
    have hcleang : ∀ g ∈ groupWords 400 (pySplit text),
        ∀ w ∈ g, w ≠ [] ∧ ∀ c ∈ w, pyIsSpace c = false := by
      intro g hg u hu
      exact hclean u ((hmem g hg).2.2 u hu)
    refine ⟨?_, ?_, ?_, ?_⟩
    · rw [hct]
      simp [hgne]
    · intro ch hch
      rw [hct] at hch
      obtain ⟨g, hg, rfl⟩ := List.mem_map.mp hch
      rw [pySplit_joinSpace g (hcleang g hg)]
      exact (hmem g hg).2.1
    · rw [hct, List.map_map]
      have hmapeq : (groupWords 400 (pySplit text)).map (pySplit ∘ joinSpace)
          = (groupWords 400 (pySplit text)).map id := by
        apply List.map_congr_left
        intro g hg
        exact pySplit_joinSpace g (hcleang g hg)
      rw [hmapeq, List.map_id]
      exact hjoin
    · intro _ ch hch
      rw [hct] at hch
      obtain ⟨g, hg, rfl⟩ := List.mem_map.mp hch
      exact ⟨(hchunk g hg).2, (hchunk g hg).1⟩

/-! ### Claim C6: the sentence highlighter -/

/-- Sentence-ending punctuation of the highlighter regex class. -/
def sentencePunct (c : Char) : Bool := c = '.' || c = '!' || c = '?'

/-- Scanner for the regex split on whitespace runs preceded by sentence
punctuation. buf holds the current sentence reversed; skipping is true while
consuming the whitespace run after a split point. -/
def splitSentencesAux : PyStr → PyStr → Bool → List PyStr
  | [], buf, _ => [buf.reverse]
  | c :: t, buf, skipping =>
    if skipping then
      if pyIsSpace c then splitSentencesAux t buf true
      else splitSentencesAux t (c :: buf) false
    else
      if pyIsSpace c && (match buf with | p :: _ => sentencePunct p | [] => false) then
        buf.reverse :: splitSentencesAux t [] true
      else splitSentencesAux t (c :: buf) false

/-- Model of the highlighter sentence split: the regex split of the stripped
text at whitespace runs that follow one of . ! ? . -/
def splitSentences (text : PyStr) : List PyStr :=
  splitSentencesAux (pyStrip text) [] false

/-- One entry of the highlighter output. -/
structure Highlight where
  text : PyStr
  score : ℚ
  tactic : Option PyStr
deriving DecidableEq

/-- A zero-shot classifier in single-label mode: the top label and score for
a sentence, or none when the underlying pipeline call raises. -/
abbrev SingleLabelClassifier := PyStr → Option (PyStr × ℚ)

/-- The loop body of highlight sentences: sentences under 4 words score 0
with no tactic; otherwise the top score is rescaled by 1.8, clamped to 1,
rounded to 3 decimals, and the label attached only above raw score 0.3. -/
def highlightSentence (classifier : SingleLabelClassifier) (sent : PyStr) : Highlight :=
  if (pySplit sent).length < 4 then ⟨sent, 0, none⟩
  else
    match classifier sent with
    | none => ⟨sent, 0, none⟩
    | some (top_label, top_score) =>
      ⟨sent, pyRound 3 (min 1 (top_score * 1.8)),
        if 0.3 < top_score then some top_label else none⟩

/-- Model of ManipulationDetector highlight sentences from model.py. -/
def highlight_sentences (classifier : SingleLabelClassifier) (text : PyStr) : List Highlight :=
  ((splitSentences text).take 20).map (highlightSentence classifier)

theorem highlightSentence_text (classifier : SingleLabelClassifier) (sent : PyStr) :
    (highlightSentence classifier sent).text = sent := by
  unfold highlightSentence
  split
  · rfl
  · split <;> rfl

/-- Classifier used in the C6 counterexample, with top score 0.1234. -/
def c6Classifier : SingleLabelClassifier := fun _ => some ("Gaslighting".data, 617/5000)

/-- Text used in the C6 counterexample. -/
def c6Text : PyStr := "This is a test sentence.".data

/-- C6 counterexample: the stored highlight score is the rescaled clamped
score rounded to three decimals, 0.222, which differs from the unrounded
rescaled value 0.22212 the claim prescribes. -/
theorem claim_c6_counterexample :
    (highlight_sentences c6Classifier c6Text).map Highlight.score = [111/500]
      ∧ (111/500 : ℚ) ≠ min 1 ((617/5000) * 1.8) := by
  constructor
  · with_unfolding_all decide
  · with_unfolding_all decide

/-- C6 amended: the highlighter returns at most 20 items, one per sentence
in original order; sentences under 4 words get score 0 and no tactic; longer
sentences whose classification succeeds get the top score rescaled by 1.8,
clamped to 1 and rounded to three decimals, with the label attached exactly
when the unscaled top score exceeds 0.3. -/
theorem claim_c6_highlights (classifier : SingleLabelClassifier) (text : PyStr) :
    (highlight_sentences classifier text).length ≤ 20
    ∧ (highlight_sentences classifier text).map Highlight.text = (splitSentences text).take 20
    ∧ (∀ h ∈ highlight_sentences classifier text,
         (pySplit h.text).length < 4 → h.score = 0 ∧ h.tactic = none)
    ∧ (∀ h ∈ highlight_sentences classifier text, ∀ lbl s,
         4 ≤ (pySplit h.text).length → classifier h.text = some (lbl, s) →
           h.score = pyRound 3 (min 1 (s * 1.8))
             ∧ h.tactic = if 0.3 < s then some lbl else none) := by
  refine ⟨?_, ?_, ?_, ?_⟩
  · unfold highlight_sentences
    rw [List.length_map]
    exact List.length_take_le _ _
  · unfold highlight_sentences
    rw [List.map_map]
    have hcongr : ((splitSentences text).take 20).map
          (fun s => (highlightSentence classifier s).text)
        = ((splitSentences text).take 20).map id :=
      List.map_congr_left (fun s _ => highlightSentence_text classifier s)
    calc ((splitSentences text).take 20).map (Highlight.text ∘ highlightSentence classifier)
        = ((splitSentences text).take 20).map (fun s => (highlightSentence classifier s).text) := rfl
      _ = ((splitSentences text).take 20).map id := hcongr
      _ = (splitSentences text).take 20 := List.map_id _
  · intro h hh hshort
    obtain ⟨sent, _, rfl⟩ := List.mem_map.mp hh
    rw [highlightSentence_text] at hshort
    unfold highlightSentence
    rw [if_pos hshort]
    exact ⟨rfl, rfl⟩
  · intro h hh lbl s hlong hq
    obtain ⟨sent, _, rfl⟩ := List.mem_map.mp hh
    rw [highlightSentence_text] at hlong hq
    unfold highlightSentence
    rw [if_neg (by omega), hq]
    exact ⟨rfl, rfl⟩

/-- Classifier used in the C6 witness. -/
def c6wClassifier : SingleLabelClassifier := fun _ => some ("Fear & Urgency".data, 1/2)

/-- Text used in the C6 witness: a short and a long sentence. -/
def c6wText : PyStr := "Run. Everyone is leaving town now!".data

/-- C6 witness: the amended theorem applied to a concrete classifier and
text, together with a direct evaluation of that instance. -/
theorem claim_c6_highlights_witness :
    ((highlight_sentences c6wClassifier c6wText).length ≤ 20
      ∧ (highlight_sentences c6wClassifier c6wText).map Highlight.text
          = (splitSentences c6wText).take 20
      ∧ (∀ h ∈ highlight_sentences c6wClassifier c6wText,
           (pySplit h.text).length < 4 → h.score = 0 ∧ h.tactic = none)
      ∧ (∀ h ∈ highlight_sentences c6wClassifier c6wText, ∀ lbl s,
           4 ≤ (pySplit h.text).length → c6wClassifier h.text = some (lbl, s) →
             h.score = pyRound 3 (min 1 (s * 1.8))
               ∧ h.tactic = if 0.3 < s then some lbl else none))
      ∧ (splitSentences c6wText).map List.length = [4, 29] :=
  ⟨claim_c6_highlights c6wClassifier c6wText, by decide⟩

/-! ### Claim C7: parsing the LLM reply into sections -/

/-- Model of Python str.upper on ASCII text. -/
def pyUpper (s : PyStr) : PyStr := s.map Char.toUpper

/-- The five fixed headings of the parse sections helper, in order. -/
def HEADINGS : List PyStr :=
  ["SUMMARY".data, "KEY TACTICS".data, "PSYCHOLOGICAL MECHANISM".data,
   "WHAT TO WATCH OUT FOR".data, "VERDICT".data]

/-- The first heading, in enumeration order, that the stripped upper-cased
line starts with, as in the generator expression of parse sections. -/
def matchHeading (line : PyStr) : Option PyStr :=
  HEADINGS.find? (fun h => h.isPrefixOf (pyUpper (pyStrip line)))

/-- Python dict assignment on an insertion-ordered association list. -/
def assocSet (m : List (PyStr × PyStr)) (k v : PyStr) : List (PyStr × PyStr) :=
  if m.any (fun p => p.1 = k) then m.map (fun p => if p.1 = k then (k, v) else p)
  else m ++ [(k, v)]

/-- The line loop of parse sections: state is the open section name, its
buffered stripped body lines, and the finished sections. -/
def parseSectionsGo : List PyStr → Option PyStr → List PyStr → List (PyStr × PyStr) →
    List (PyStr × PyStr)
  | [], current, buf, secs =>
    match current with
    | none => secs
    | some cur => assocSet secs cur (pyStrip (joinSpace buf))
  | line :: rest, current, buf, secs =>
    match matchHeading line with
    | some h =>
      parseSectionsGo rest (some h) []
        (match current with
         | none => secs
         | some cur => assocSet secs cur (pyStrip (joinSpace buf)))
    | none =>
      if current.isSome && !(pyStrip line).isEmpty then
        parseSectionsGo rest current (buf ++ [pyStrip line]) secs
      else
        parseSectionsGo rest current buf secs

/-- Accumulating scanner behind the splitlines model; buf holds the current
line reversed and the flag records whether the previous character was a
carriage return, so that a CR LF pair ends a single line. -/
def pySplitlinesAux : PyStr → PyStr → Bool → List PyStr
  | [], buf, _ => if buf.isEmpty then [] else [buf.reverse]
  | c :: t, buf, sawCR =>
    if c = '\n' then
      if sawCR then pySplitlinesAux t [] false
      else buf.reverse :: pySplitlinesAux t [] false
    else if c = '\r' then buf.reverse :: pySplitlinesAux t [] true
    else pySplitlinesAux t (c :: buf) false

/-- Model of Python str.splitlines for newline and carriage returns, with no
trailing empty line. -/
def pySplitlines (s : PyStr) : List PyStr := pySplitlinesAux s [] false

/-- Model of the parse sections helper of llm analyzer: scan the reply lines
for headings and join each body under the last seen heading. -/
def _parse_sections (text : PyStr) : List (PyStr × PyStr) :=
  parseSectionsGo (pySplitlines text) none [] []

/-- Join of reply lines with newline separators. -/
def joinLines : List PyStr → PyStr
  | [] => []
  | [l] => l
  | l :: l2 :: rest => l ++ '\n' :: joinLines (l2 :: rest)

theorem pySplitlinesAux_step_other {c : Char} (t buf : PyStr) (sawCR : Bool)
    (hn : c ≠ '\n') (hr : c ≠ '\r') :
    pySplitlinesAux (c :: t) buf sawCR = pySplitlinesAux t (c :: buf) false := by
  rw [pySplitlinesAux.eq_def]
  simp only []
  rw [if_neg hn, if_neg hr]

theorem pySplitlinesAux_step_nl (t buf : PyStr) :
    pySplitlinesAux ('\n' :: t) buf false = buf.reverse :: pySplitlinesAux t [] false := by
  rw [pySplitlinesAux.eq_def]
  simp

theorem pySplitlinesAux_clean (l : PyStr) (hl : ∀ c ∈ l, c ≠ '\n' ∧ c ≠ '\r') :
    ∀ (r buf : PyStr), pySplitlinesAux (l ++ r) buf false
      = pySplitlinesAux r (l.reverse ++ buf) false := by
  induction l with
  | nil => intro r buf; rfl
  | cons c l' ih =>
    intro r buf
    have hc := hl c (List.mem_cons_self c l')
    rw [List.cons_append, pySplitlinesAux_step_other _ _ _ hc.1 hc.2,
        ih (fun x hx => hl x (List.mem_cons_of_mem c hx)) r (c :: buf)]
    simp

theorem pySplitlines_joinLines (ls : List PyStr)
    (hclean : ∀ l ∈ ls, ∀ c ∈ l, c ≠ '\n' ∧ c ≠ '\r')
    (hlast : ls.getLast? ≠ some []) :
    pySplitlines (joinLines ls) = ls := by
  induction ls with
  | nil => rfl
  | cons l rest ih =>
    cases rest with
    | nil =>
      show pySplitlinesAux (joinLines [l]) [] false = [l]
      rw [show joinLines [l] = l from rfl,
          show (l : PyStr) = l ++ [] from (List.append_nil l).symm,
          pySplitlinesAux_clean l (hclean l (List.mem_cons_self l [])) [] []]
      unfold pySplitlinesAux
      have hlne : l ≠ [] := by simpa using hlast
      rw [if_neg (by simp [hlne])]
      simp
    | cons l2 rest' =>
      have hlast2 : (l2 :: rest').getLast? ≠ some [] := by
        simpa [List.getLast?_cons_cons] using hlast
      have ih' := ih (fun u hu => hclean u (List.mem_cons_of_mem l hu)) hlast2
      show pySplitlinesAux (joinLines (l :: l2 :: rest')) [] false = l :: l2 :: rest'
      rw [show joinLines (l :: l2 :: rest') = l ++ '\n' :: joinLines (l2 :: rest') from rfl,
          pySplitlinesAux_clean l (hclean l (List.mem_cons_self l _)) _ [],
          List.append_nil, pySplitlinesAux_step_nl, List.reverse_reverse]
      exact congrArg (l :: ·) ih'

theorem parseSectionsGo_skip_pre (pre : List PyStr) (rest : List PyStr)
    (secs : List (PyStr × PyStr))
    (hpre : ∀ l ∈ pre, matchHeading l = none) :
    parseSectionsGo (pre ++ rest) none [] secs = parseSectionsGo rest none [] secs := by
  induction pre with
  | nil => rfl
  | cons l pre' ih =>
    rw [List.cons_append, parseSectionsGo, hpre l (List.mem_cons_self l pre')]
    simp only [Option.isSome_none, Bool.false_and, Bool.false_eq_true, if_false]
    exact ih (fun u hu => hpre u (List.mem_cons_of_mem l hu))

theorem parseSectionsGo_body (body : List PyStr) (rest : List PyStr) (cur : PyStr)
    (buf : List PyStr) (secs : List (PyStr × PyStr))
    (hb : ∀ l ∈ body, matchHeading l = none ∧ pyStrip l ≠ []) :
    parseSectionsGo (body ++ rest) (some cur) buf secs
      = parseSectionsGo rest (some cur) (buf ++ body.map pyStrip) secs := by
  induction body generalizing buf with
  | nil => simp
  | cons l body' ih =>
    have hl := hb l (List.mem_cons_self l body')
    rw [List.cons_append, parseSectionsGo, hl.1]
    simp only [Option.isSome_some, Bool.true_and]
    rw [if_pos (by simp [hl.2]),
        ih (buf ++ [pyStrip l]) (fun u hu => hb u (List.mem_cons_of_mem l hu))]
    simp


/-- C7: a reply made of discarded lead lines, a SUMMARY heading line, its
non-empty body lines, a KEY TACTICS heading line and its non-empty body
lines, in that order, parses to a mapping with exactly the two keys SUMMARY
and KEY TACTICS, each holding its stripped body lines joined by single
spaces; the lead lines are discarded. -/
theorem claim_c7_parse_sections
    (pre body1 body2 : List PyStr) (h1 h2 : PyStr)
    (hclean : ∀ l ∈ pre ++ h1 :: (body1 ++ h2 :: body2), ∀ c ∈ l, c ≠ '\n' ∧ c ≠ '\r')
    (hpre : ∀ l ∈ pre, matchHeading l = none)
    (hh1 : matchHeading h1 = some ("SUMMARY".data))
    (hb1ne : body1 ≠ [])
    (hb1 : ∀ l ∈ body1, matchHeading l = none ∧ pyStrip l ≠ [])
    (hh2 : matchHeading h2 = some ("KEY TACTICS".data))
    (hb2ne : body2 ≠ [])
    (hb2 : ∀ l ∈ body2, matchHeading l = none ∧ pyStrip l ≠ []) :
    _parse_sections (joinLines (pre ++ h1 :: (body1 ++ h2 :: body2)))
      = [("SUMMARY".data, pyStrip (joinSpace (body1.map pyStrip))),
         ("KEY TACTICS".data, pyStrip (joinSpace (body2.map pyStrip)))] := by
  have hzlast : (pre ++ h1 :: (body1 ++ h2 :: body2)).getLast? ≠ some [] := by
    rcases List.eq_nil_or_concat body2 with rfl | ⟨ys, z, rfl⟩
    · exact absurd rfl hb2ne
    · have hz : z ∈ ys.concat z := by simp
      have hzne : z ≠ [] := by
        intro hcon
        have := (hb2 z hz).2
        rw [hcon] at this
        exact this rfl
      have heq : pre ++ h1 :: (body1 ++ h2 :: ys.concat z)
          = (pre ++ h1 :: (body1 ++ h2 :: ys)) ++ [z] := by
        simp
      rw [heq, List.getLast?_concat]
      simp [hzne]
  unfold _parse_sections
  rw [pySplitlines_joinLines _ hclean hzlast,
      parseSectionsGo_skip_pre pre _ [] hpre,
      parseSectionsGo, hh1]
  dsimp only
  rw [parseSectionsGo_body body1 _ _ [] [] hb1]
  simp only [List.nil_append]
  rw [parseSectionsGo, hh2]
  dsimp only
  rw [show body2 = body2 ++ [] from (List.append_nil body2).symm,
      parseSectionsGo_body body2 [] _ [] _ hb2]
  rw [parseSectionsGo]
  simp only [List.nil_append, List.append_nil]
  simp [assocSet]

/-- Discarded lead lines of the C7 witness reply. -/
def c7Pre : List PyStr := ["Here is my analysis.".data]

/-- SUMMARY body lines of the C7 witness reply. -/
def c7Body1 : List PyStr := ["  This text is highly manipulative.".data]

/-- KEY TACTICS body lines of the C7 witness reply. -/
def c7Body2 : List PyStr := ["Fear and false urgency.".data]

/-- C7 witness: the theorem applied to a concrete reply, with the concrete
parsed mapping computed directly. -/
theorem claim_c7_parse_sections_witness :
    (_parse_sections (joinLines
        (c7Pre ++ "SUMMARY".data :: (c7Body1 ++ "Key Tactics:".data :: c7Body2)))
      = [("SUMMARY".data, pyStrip (joinSpace (c7Body1.map pyStrip))),
         ("KEY TACTICS".data, pyStrip (joinSpace (c7Body2.map pyStrip)))])
    ∧ pyStrip (joinSpace (c7Body1.map pyStrip)) = "This text is highly manipulative.".data :=
  ⟨claim_c7_parse_sections c7Pre c7Body1 c7Body2 "SUMMARY".data "Key Tactics:".data
     (by decide) (by decide) (by decide) (by decide) (by decide) (by decide)
     (by decide) (by decide),
   by decide⟩

/-! ### Claim C8: degraded-capability outcomes as data -/

/-- The explanation dictionary of the llm analyzer. -/
structure Explanation where
  success : Bool
  full_explanation : PyStr
  sections : List (PyStr × PyStr)
deriving DecidableEq

/-- The external LLM call: prompt to reply text, or to the exception message;
the whole client is absent when the API key environment variable is unset. -/
abbrev LLMClient := PyStr → Except PyStr PyStr

/-- Fuel-indexed decimal digit rendering, structurally recursive. -/
def natDigitsF : ℕ → ℕ → PyStr
  | 0, _ => []
  | fuel + 1, n =>
    if n < 10 then [Nat.digitChar n]
    else natDigitsF fuel (n / 10) ++ [Nat.digitChar (n % 10)]

/-- Decimal digits of a natural number. -/
def natDigits (n : ℕ) : PyStr := natDigitsF (n + 1) n

/-- Rendering of a one-decimal float value as Python prints it. -/
def fmtRat1 (q : ℚ) : PyStr :=
  let m := roundHalfEven (q * 10)
  if m < 0 then '-' :: (natDigits (m.natAbs / 10) ++ '.' :: [Nat.digitChar (m.natAbs % 10)])
  else natDigits (m.toNat / 10) ++ '.' :: [Nat.digitChar (m.toNat % 10)]

/-- Model of Python ", ".join. -/
def commaJoin : List PyStr → PyStr
  | [] => []
  | [x] => x
  | x :: y :: rest => x ++ ',' :: ' ' :: commaJoin (y :: rest)

/-- The deterministic prompt built by generate explanation: the overall
score, the comma-joined top tactics or none, and the first 1500 characters
of the text, embedded in the fixed instruction template. -/
def build_prompt (text : PyStr) (analysis : AnalysisResult) : PyStr :=
  ("You are a media-literacy expert specialising in psychological manipulation.\n\nThe automated transformer scored this text ".data)
    ++ fmtRat1 analysis.overall_score
    ++ "/100 for manipulation.\nTop tactics detected: ".data
    ++ (if analysis.top_tactics.isEmpty then "none".data else commaJoin analysis.top_tactics)
    ++ "\n\nTEXT:\n\"\"\"".data
    ++ text.take 1500
    ++ "\"\"\"\n\nWrite a structured analysis with exactly these 5 headings (use them verbatim):\nSUMMARY\nKEY TACTICS\nPSYCHOLOGICAL MECHANISM\nWHAT TO WATCH OUT FOR\nVERDICT\n\nRules:\n- Cite actual phrases from the text as evidence.\n- Be direct and specific.\n- Total response under 420 words.\n".data

/-- Model of generate explanation from llm analyzer: fixed guidance when no
client is configured, parsed reply on success, embedded error message and
empty sections on failure; a result is always returned, never an exception. -/
def generate_explanation (client : Option LLMClient) (text : PyStr)
    (analysis : AnalysisResult) : Explanation :=
  match client with
  | none =>
    { success := false
      full_explanation :=
        "Set ANTHROPIC_API_KEY environment variable to enable LLM analysis.".data
      sections := [] }
  | some call =>
    match call (build_prompt text analysis) with
    | .ok reply =>
      { success := true, full_explanation := reply, sections := _parse_sections reply }
    | .error exc =>
      { success := false, full_explanation := "LLM error: ".data ++ exc, sections := [] }

/-- The multimodal result dictionary, a tagged variant. -/
inductive MultimodalResult where
  | unavailable (error : Option PyStr)
  | captionResult (match_probability mismatch_score : ℚ) (verdict : PyStr)
  | clickbaitResult (clickbait_score : ℚ) (label_scores : List (PyStr × ℚ))
deriving DecidableEq

/-- The four fixed clickbait prompts of multimodal.py. -/
def clickbait_labels : List PyStr :=
  ["shocking or sensational image designed to provoke outrage".data,
   "exaggerated facial expression of shock or disbelief".data,
   "misleading or deceptive visual thumbnail".data,
   "normal neutral informative image".data]

/-- Model of analyze image caption from multimodal.py: the fetch plus CLIP
inference is a parameter yielding the two softmax probabilities or the
exception message. -/
def analyze_image_caption (available : Bool) (image_url caption : PyStr)
    (outcome : Except PyStr (ℚ × ℚ)) : MultimodalResult :=
  if !available || image_url.isEmpty then .unavailable none
  else
    match outcome with
    | .error exc => .unavailable (some exc)
    | .ok (p0, p1) =>
      .captionResult (pyRound 1 (p0 * 100)) (pyRound 1 (p1 * 100))
        (if 60 < pyRound 1 (p1 * 100) then "HIGH MISMATCH".data
         else if 35 < pyRound 1 (p1 * 100) then "MODERATE".data else "ALIGNED".data)

/-- Model of analyze clickbait from multimodal.py: the fetch plus CLIP
inference is a parameter yielding the four label probabilities or the
exception message. -/
def analyze_clickbait (available : Bool) (image_url : PyStr)
    (outcome : Except PyStr (List ℚ)) : MultimodalResult :=
  if !available || image_url.isEmpty then .unavailable none
  else
    match outcome with
    | .error exc => .unavailable (some exc)
    | .ok probs =>
      .clickbaitResult (pyRound 1 ((probs.take 3).sum * 100))
        (clickbait_labels.zip (probs.map (fun p => pyRound 1 (p * 100))))

/-- C8: degraded capability is data, never a failure: no credential gives
the fixed guidance with empty sections; an LLM call error gives success
false with the message embedded; an unavailable vision model or missing
image URL gives available false; a fetch or inference error gives available
false with the error string. All four functions are total, so no request
failure is ever raised. -/
theorem claim_c8_degraded :
    (∀ text analysis, generate_explanation none text analysis
        = ⟨false, "Set ANTHROPIC_API_KEY environment variable to enable LLM analysis.".data, []⟩)
    ∧ (∀ (call : LLMClient) text analysis exc,
         call (build_prompt text analysis) = .error exc →
           generate_explanation (some call) text analysis
             = ⟨false, "LLM error: ".data ++ exc, []⟩)
    ∧ (∀ available image_url caption outcome, available = false ∨ image_url = [] →
         analyze_image_caption available image_url caption outcome = .unavailable none)
    ∧ (∀ image_url caption exc, image_url ≠ [] →
         analyze_image_caption true image_url caption (.error exc) = .unavailable (some exc))
    ∧ (∀ available image_url outcome, available = false ∨ image_url = [] →
         analyze_clickbait available image_url outcome = .unavailable none)
    ∧ (∀ image_url exc, image_url ≠ [] →
         analyze_clickbait true image_url (.error exc) = .unavailable (some exc)) := by
  refine ⟨?_, ?_, ?_, ?_, ?_, ?_⟩
  · intro text analysis
    rfl
  · intro call text analysis exc h
    unfold generate_explanation
    dsimp only
    rw [h]
  · rintro available image_url caption outcome (rfl | rfl)
    · rfl
    · unfold analyze_image_caption
      rw [if_pos (by simp)]
  · intro image_url caption exc h
    unfold analyze_image_caption
    rw [if_neg (by simp [h])]
  · rintro available image_url outcome (rfl | rfl)
    · rfl
    · unfold analyze_clickbait
      rw [if_pos (by simp)]
  · intro image_url exc h
    unfold analyze_clickbait
    rw [if_neg (by simp [h])]

/-- The failing LLM call used in the C8 witness. -/
def c8FailingCall : LLMClient := fun _ => .error ("connection refused".data)

/-- C8 witness: every branch of the theorem applied at concrete inputs. -/
theorem claim_c8_degraded_witness :
    (generate_explanation none [] _empty_result
        = ⟨false, "Set ANTHROPIC_API_KEY environment variable to enable LLM analysis.".data, []⟩)
    ∧ (generate_explanation (some c8FailingCall) [] _empty_result
        = ⟨false, "LLM error: connection refused".data, []⟩)
    ∧ (analyze_image_caption false "http://x".data "cat".data (.ok (1/2, 1/2))
        = .unavailable none)
    ∧ (analyze_image_caption true "http://x".data "cat".data (.error ("timeout".data))
        = .unavailable (some ("timeout".data)))
    ∧ (analyze_clickbait false "http://x".data (.ok [1/4, 1/4, 1/4, 1/4])
        = .unavailable none)
    ∧ (analyze_clickbait true "http://x".data (.error ("timeout".data))
        = .unavailable (some ("timeout".data))) :=
  ⟨claim_c8_degraded.1 [] _empty_result,
   by
     have h := claim_c8_degraded.2.1 c8FailingCall [] _empty_result
       ("connection refused".data) rfl
     simpa using h,
   claim_c8_degraded.2.2.1 false "http://x".data "cat".data (.ok (1/2, 1/2)) (Or.inl rfl),
   claim_c8_degraded.2.2.2.1 "http://x".data "cat".data ("timeout".data) (by decide),
   claim_c8_degraded.2.2.2.2.1 false "http://x".data (.ok [1/4, 1/4, 1/4, 1/4]) (Or.inl rfl),
   claim_c8_degraded.2.2.2.2.2 "http://x".data ("timeout".data) (by decide)⟩

/-! ### The API layer of app.py and the report of report gen -/

/-- The request body schema of the three POST endpoints. -/
structure AnalyzeRequest where
  text : PyStr
  url : PyStr := []
  image_url : PyStr := []
  caption : PyStr := []
  include_explanation : Bool := true
  include_highlights : Bool := true
deriving DecidableEq

/-- An HTTPException raised by a route. -/
structure HTTPError where
  status : ℕ
  detail : PyStr
deriving DecidableEq

/-- The reduced response body of the quick score endpoint. -/
structure QuickScoreResponse where
  overall_score : ℚ
  severity : PyStr
  severity_color : PyStr
  top_tactics : List PyStr
deriving DecidableEq

/-- The response body of the analyze endpoint; the wall-clock
processing time field is outside the shallow embedding. -/
structure AnalyzeResponse where
  analysis : AnalysisResult
  highlights : List Highlight
  explanation : Explanation
  multimodal : MultimodalResult
deriving DecidableEq

/-- Model of the analyze route of app.py: validate, classify, optionally
highlight, optionally explain, optionally run the vision branch. -/
def analyze_route (classifier : MultiLabelClassifier)
    (sentClassifier : SingleLabelClassifier) (client : Option LLMClient)
    (visionAvailable : Bool) (captionOutcome : Except PyStr (ℚ × ℚ))
    (clickbaitOutcome : Except PyStr (List ℚ)) (req : AnalyzeRequest) :
    Except HTTPError AnalyzeResponse :=
  if req.text = [] ∨ (pyStrip req.text).length < 10 then
    .error ⟨400, "Text must be at least 10 characters.".data⟩
  else
    let analysis := analyze_text classifier req.text
    let highlights :=
      if req.include_highlights then highlight_sentences sentClassifier req.text else []
    let explanation :=
      if req.include_explanation then generate_explanation client req.text analysis
      else ⟨false, "LLM disabled".data, []⟩
    let multimodal :=
      if !req.image_url.isEmpty then
        if !req.caption.isEmpty then
          analyze_image_caption visionAvailable req.image_url req.caption captionOutcome
        else analyze_clickbait visionAvailable req.image_url clickbaitOutcome
      else .unavailable none
    .ok ⟨analysis, highlights, explanation, multimodal⟩

/-- Model of the quick score route of app.py: no validation, reduced body. -/
def quick_score (classifier : MultiLabelClassifier) (req : AnalyzeRequest) :
    Except HTTPError QuickScoreResponse :=
  let analysis := analyze_text classifier req.text
  .ok ⟨analysis.overall_score, analysis.severity, analysis.severity_color,
       analysis.top_tactics⟩

/-- A flowable of the generated report, keeping the text content and the
table rows of each element; styling is presentation only. -/
inductive Flowable where
  | para (text : PyStr)
  | table (rows : List (List PyStr))
  | spacer
  | hrule
deriving DecidableEq

/-- The per-tactic risk label of the report table. -/
def report_risk (val : ℚ) : PyStr :=
  if 60 ≤ val then "HIGH".data else if 35 ≤ val then "MODERATE".data else "LOW".data

/-- The tactic breakdown table of the report: a header row and one row per
entry of the tactic scores mapping. -/
def report_trow (analysis : AnalysisResult) : List (List PyStr) :=
  ["Tactic".data, "Score".data, "Risk".data]
    :: analysis.tactic_scores.map (fun p => [p.1, fmtRat1 p.2 ++ "/100".data, report_risk p.2])

/-- The three-cell overview table of the report. -/
def report_overview (analysis : AnalysisResult) : List (List PyStr) :=
  [["MANIPULATION SCORE".data, "SEVERITY".data, "TACTICS FOUND".data],
   [fmtRat1 analysis.overall_score ++ "/100".data, analysis.severity,
    natDigits analysis.top_tactics.length]]

/-- Model of generate report from report gen: the story flowables in build
order; now is the formatted timestamp. -/
def generate_report (now : PyStr) (text : PyStr) (analysis : AnalysisResult)
    (explanation : Explanation) (url : PyStr) : List Flowable :=
  [Flowable.para ("PsychoGuard AI — Manipulation Analysis Report".data),
   Flowable.para ("Generated ".data ++ now),
   Flowable.hrule, Flowable.spacer,
   Flowable.table (report_overview analysis), Flowable.spacer,
   Flowable.para ("Tactic Breakdown".data),
   Flowable.table (report_trow analysis), Flowable.spacer]
  ++ (if explanation.success then
        [Flowable.para ("AI Analysis (Claude)".data)]
        ++ (explanation.sections.flatMap
              (fun p => if !p.2.isEmpty then [Flowable.para p.1, Flowable.para p.2] else []))
        ++ (if explanation.sections.isEmpty && !explanation.full_explanation.isEmpty then
              [Flowable.para explanation.full_explanation] else [])
        ++ [Flowable.spacer]
      else [])
  ++ (if !text.isEmpty then
        [Flowable.hrule, Flowable.spacer,
         Flowable.para ("Analysed Content (excerpt)".data),
         Flowable.para (text.take 800 ++ (if 800 < text.length then ['…'] else []))]
      else [])
  ++ (if !url.isEmpty then [Flowable.spacer, Flowable.para ("Source: ".data ++ url)] else [])
  ++ [Flowable.spacer, Flowable.hrule,
      Flowable.para ("PsychoGuard AI  ·  Protecting minds from digital manipulation  ·  For research & educational use".data)]

/-- Model of the report route of app.py: validate, classify, explain,
render; the PDF byte stream itself is presentation only. -/
def report_route (classifier : MultiLabelClassifier) (client : Option LLMClient)
    (now : PyStr) (req : AnalyzeRequest) : Except HTTPError (List Flowable) :=
  if req.text = [] ∨ (pyStrip req.text).length < 10 then
    .error ⟨400, "Text too short.".data⟩
  else
    let analysis := analyze_text classifier req.text
    let explanation := generate_explanation client req.text analysis
    .ok (generate_report now req.text analysis explanation req.url)

/-! ### Claim C5: request validation across the POST endpoints -/

deriving instance DecidableEq for Except

/-- A request whose text is 5 characters, used in the C5 counterexample. -/
def c5Request : AnalyzeRequest := { text := "short".data }

/-- C5 counterexample: the quick score endpoint performs no validation: a
5-character text is answered with a success response carrying the canonical
zero body, not with a 4xx error. -/
theorem claim_c5_counterexample :
    quick_score (fun _ _ => 1/2) c5Request
        = .ok ⟨0, "LOW".data, "#22c55e".data, []⟩
      ∧ (c5Request.text = [] ∨ (pyStrip c5Request.text).length < 10)
      ∧ ∀ e : HTTPError, quick_score (fun _ _ => 1/2) c5Request ≠ .error e := by
  refine ⟨by decide, by decide, ?_⟩
  intro e h
  have heq : quick_score (fun _ _ => 1/2) c5Request
      = .ok ⟨0, "LOW".data, "#22c55e".data, []⟩ := by decide
  rw [heq] at h
  exact Except.noConfusion h

/-- C5 amended: for a missing or short text, the analyze and report routes
reject with a 400 error before any model call, their responses being fixed
constants independent of every model parameter; the quick score route does
not reject: it returns status 200 with the canonical zero body, equally
independent of the classifier because analyze text short-circuits. -/
theorem claim_c5_validation (classifier : MultiLabelClassifier)
    (sentClassifier : SingleLabelClassifier) (client : Option LLMClient)
    (visionAvailable : Bool) (captionOutcome : Except PyStr (ℚ × ℚ))
    (clickbaitOutcome : Except PyStr (List ℚ)) (now : PyStr) (req : AnalyzeRequest)
    (h : req.text = [] ∨ (pyStrip req.text).length < 10) :
    analyze_route classifier sentClassifier client visionAvailable captionOutcome
        clickbaitOutcome req
        = .error ⟨400, "Text must be at least 10 characters.".data⟩
    ∧ report_route classifier client now req = .error ⟨400, "Text too short.".data⟩
    ∧ quick_score classifier req = .ok ⟨0, "LOW".data, "#22c55e".data, []⟩ := by
  have hempty : analyze_text classifier req.text = _empty_result := by
    unfold analyze_text
    rw [if_pos h]
  refine ⟨?_, ?_, ?_⟩
  · unfold analyze_route
    rw [if_pos h]
  · unfold report_route
    rw [if_pos h]
  · unfold quick_score
    dsimp only
    rw [hempty]
    rfl

/-- C5 witness: the amended theorem applied to a concrete short request. -/
theorem claim_c5_validation_witness :
    (c5Request.text = [] ∨ (pyStrip c5Request.text).length < 10)
    ∧ (analyze_route (fun _ _ => 1/2) (fun _ => none) none false
          (.error ("x".data)) (.error ("x".data)) c5Request
          = .error ⟨400, "Text must be at least 10 characters.".data⟩
        ∧ report_route (fun _ _ => 1/2) none ("today".data) c5Request
            = .error ⟨400, "Text too short.".data⟩
        ∧ quick_score (fun _ _ => 1/2) c5Request
            = .ok ⟨0, "LOW".data, "#22c55e".data, []⟩) :=
  ⟨by decide,
   claim_c5_validation (fun _ _ => 1/2) (fun _ => none) none false
     (.error ("x".data)) (.error ("x".data)) ("today".data) c5Request (by decide)⟩

/-! ### Claim C9: the report on the demo text with the LLM disabled -/

/-- The demo text of the claim, with its two apostrophes. -/
def c9Text : PyStr :=
  "Act now before it".data ++ [Char.ofNat 39]
    ++ "s too late! Everyone is buying this, don".data ++ [Char.ofNat 39]
    ++ "t be left behind!".data

/-- The report request on the demo text. -/
def c9Request : AnalyzeRequest := { text := c9Text }

/-- Constant classifier used in the C9 counterexample. -/
def c9Classifier : MultiLabelClassifier := fun _ _ => 1/2

/-- A concrete formatted timestamp used in the C9 counterexample. -/
def c9Now : PyStr := "January 01, 2026 at 00:00".data

/-- C9 counterexample: with the LLM disabled the explanation carries the
placeholder text, but the generated document contains neither the
placeholder paragraph nor any explanation heading: the report only renders
the explanation block when success is true. -/
theorem claim_c9_counterexample :
    (generate_explanation none c9Text (analyze_text c9Classifier c9Text)).full_explanation
        = "Set ANTHROPIC_API_KEY environment variable to enable LLM analysis.".data
    ∧ Flowable.para
          ("Set ANTHROPIC_API_KEY environment variable to enable LLM analysis.".data)
        ∉ generate_report c9Now c9Text (analyze_text c9Classifier c9Text)
            (generate_explanation none c9Text (analyze_text c9Classifier c9Text)) []
    ∧ Flowable.para ("AI Analysis (Claude)".data)
        ∉ generate_report c9Now c9Text (analyze_text c9Classifier c9Text)
            (generate_explanation none c9Text (analyze_text c9Classifier c9Text)) [] := by
  refine ⟨rfl, ?_, ?_⟩
  · with_unfolding_all decide
  · with_unfolding_all decide

/-- C9 amended: for any classifier and timestamp, the report route on the
demo text with the LLM disabled succeeds with the rendered document; its
tactic table has a header row plus exactly one row per fixed tactic, in the
fixed label order, and no explanation section is rendered at all: neither
the explanation heading nor the disabled placeholder text appears. -/
theorem claim_c9_report (classifier : MultiLabelClassifier) (now : PyStr) :
    report_route classifier none now c9Request
        = .ok (generate_report now c9Text (analyze_text classifier c9Text)
            (generate_explanation none c9Text (analyze_text classifier c9Text)) [])
    ∧ (report_trow (analyze_text classifier c9Text)).length = 1 + TACTIC_LABELS.length
    ∧ (analyze_text classifier c9Text).tactic_scores.map Prod.fst = TACTIC_LABELS
    ∧ Flowable.table (report_trow (analyze_text classifier c9Text))
        ∈ generate_report now c9Text (analyze_text classifier c9Text)
            (generate_explanation none c9Text (analyze_text classifier c9Text)) []
    ∧ Flowable.para ("AI Analysis (Claude)".data)
        ∉ generate_report now c9Text (analyze_text classifier c9Text)
            (generate_explanation none c9Text (analyze_text classifier c9Text)) []
    ∧ Flowable.para
          ("Set ANTHROPIC_API_KEY environment variable to enable LLM analysis.".data)
        ∉ generate_report now c9Text (analyze_text classifier c9Text)
            (generate_explanation none c9Text (analyze_text classifier c9Text)) [] := by
  have hguard : ¬(c9Request.text = [] ∨ (pyStrip c9Request.text).length < 10) := by decide
  have hexp : generate_explanation none c9Text (analyze_text classifier c9Text)
      = ⟨false, "Set ANTHROPIC_API_KEY environment variable to enable LLM analysis.".data, []⟩ :=
    rfl
  have hts : (analyze_text classifier c9Text).tactic_scores
      = TACTIC_LABELS.map
          (fun l => (l, pyRound 1 (tacticMean classifier c9Text l * 100))) := by
    unfold analyze_text
    rw [if_neg (by decide)]
    rfl
  refine ⟨?_, ?_, ?_, ?_, ?_, ?_⟩
  · unfold report_route
    rw [if_neg hguard]
    rfl
  · unfold report_trow
    rw [hts]
    simp [TACTIC_LABELS]
  · rw [hts]
    rfl
  · unfold generate_report
    simp
  · rw [hexp]
    unfold generate_report
    simp +decide
  · rw [hexp]
    unfold generate_report
    simp +decide

/-- C10 witness: the amended theorem applied to a concrete four-word text,
with the concrete chunk list computed directly. -/
theorem claim_c10_chunking_witness :
    (_chunk_text ("hello brave new world".data) 400 ≠ []
      ∧ (∀ ch ∈ _chunk_text ("hello brave new world".data) 400, (pySplit ch).length ≤ 400)
      ∧ ((_chunk_text ("hello brave new world".data) 400).map pySplit).flatten
          = pySplit ("hello brave new world".data)
      ∧ (pySplit ("hello brave new world".data) ≠ [] →
           ∀ ch ∈ _chunk_text ("hello brave new world".data) 400,
             ch ≠ [] ∧ pyStrip ch ≠ []))
    ∧ _chunk_text ("hello brave new world".data) 400 = ["hello brave new world".data] :=
  ⟨claim_c10_chunking ("hello brave new world".data), by decide⟩

/-- C9 witness: the amended theorem applied to the concrete classifier and
timestamp of the counterexample. -/
theorem claim_c9_report_witness :
    report_route c9Classifier none c9Now c9Request
        = .ok (generate_report c9Now c9Text (analyze_text c9Classifier c9Text)
            (generate_explanation none c9Text (analyze_text c9Classifier c9Text)) [])
    ∧ (report_trow (analyze_text c9Classifier c9Text)).length = 1 + TACTIC_LABELS.length
    ∧ (analyze_text c9Classifier c9Text).tactic_scores.map Prod.fst = TACTIC_LABELS
    ∧ Flowable.table (report_trow (analyze_text c9Classifier c9Text))
        ∈ generate_report c9Now c9Text (analyze_text c9Classifier c9Text)
            (generate_explanation none c9Text (analyze_text c9Classifier c9Text)) []
    ∧ Flowable.para ("AI Analysis (Claude)".data)
        ∉ generate_report c9Now c9Text (analyze_text c9Classifier c9Text)
            (generate_explanation none c9Text (analyze_text c9Classifier c9Text)) []
    ∧ Flowable.para
          ("Set ANTHROPIC_API_KEY environment variable to enable LLM analysis.".data)
        ∉ generate_report c9Now c9Text (analyze_text c9Classifier c9Text)
            (generate_explanation none c9Text (analyze_text c9Classifier c9Text)) [] :=
  claim_c9_report c9Classifier c9Now
